import Mathlib

/-!
Shallow embedding of the ownership/allocation accounting engine of the
family-investment-tracker repository (`src/lib/calculations.ts`), together
with proofs settling the frozen claims about it.

Modelling conventions:
* JavaScript numbers are modelled as exact rationals (`ℚ`).
* JavaScript `Map` objects are modelled as association lists
  (`List (String × α)`) with `Map.set` semantics: an existing key is
  updated in place, a new key is appended at the end, preserving the
  source's insertion-order iteration.
* The non-null assertion `sharesMap.get(allocation.member_id)!` in
  `calculateMemberShares` throws a TypeError at run time when the key is
  absent; that crash is modelled by an `Option` result (`none` = crash).
* `stock.current_price` is `number | null` in the source and is modelled
  as `Option ℚ`; `price || 0` becomes `Option.getD 0`.
-/

/-- A family member (`FamilyMember` in `types`): only the fields the
engine reads are modelled. -/
structure FamilyMember where
  id : String
  name : String
  deriving DecidableEq

/-- A cash contribution by a member. -/
structure Contribution where
  member_id : String
  amount : ℚ
  deriving DecidableEq

/-- A tradable security (`Stock`), with nullable market price. -/
structure Stock where
  id : String
  symbol : String
  name : String
  current_price : Option ℚ
  deriving DecidableEq

/-- Transaction direction. -/
inductive TxType where
  | buy
  | sell
  deriving DecidableEq

/-- A buy or sell transaction of a security. -/
structure Transaction where
  id : String
  stock_id : String
  txType : TxType
  quantity : ℚ
  price_per_share : ℚ
  total_amount : ℚ
  deriving DecidableEq

/-- The split of one transaction's amount attributed to one member. -/
structure TransactionAllocation where
  transaction_id : String
  member_id : String
  amount : ℚ
  percentage : ℚ
  deriving DecidableEq

/-- The ledger snapshot consumed by every engine function
(`CalculationData` in the source). -/
structure CalculationData where
  members : List FamilyMember
  contributions : List Contribution
  stocks : List Stock
  transactions : List Transaction
  allocations : List TransactionAllocation
  deriving DecidableEq

/-- Per-member cash figures (`MemberCashPool`). -/
structure MemberCashPool where
  member_id : String
  member_name : String
  total_contributions : ℚ
  total_buys : ℚ
  total_sells : ℚ
  available_cash : ℚ
  deriving DecidableEq

/-- Per-member row of the portfolio summary (`MemberPortfolioSummary`). -/
structure MemberPortfolioSummary where
  memberId : String
  memberName : String
  totalContributions : ℚ
  currentStockValue : ℚ
  availableCash : ℚ
  totalValue : ℚ
  costBasis : ℚ
  gainLoss : ℚ
  gainLossPercentage : ℚ
  ownershipPercentage : ℚ
  deriving DecidableEq

/-- Portfolio-wide summary (`PortfolioSummary`). -/
structure PortfolioSummary where
  totalValue : ℚ
  totalCostBasis : ℚ
  totalGainLoss : ℚ
  totalGainLossPercentage : ℚ
  totalCash : ℚ
  memberBreakdown : List MemberPortfolioSummary
  deriving DecidableEq

/-- One row of the per-security ownership breakdown
(`StockWithOwnership.memberOwnership` element). -/
structure MemberOwnershipEntry where
  memberId : String
  memberName : String
  shares : ℚ
  value : ℚ
  percentage : ℚ
  deriving DecidableEq

/-- Per-security summary (`StockWithOwnership`); the `...stock` spread of
the source is modelled by carrying the stock record. -/
structure StockWithOwnership where
  stock : Stock
  sharesOwned : ℚ
  currentValue : ℚ
  costBasis : ℚ
  gainLoss : ℚ
  gainLossPercentage : ℚ
  memberOwnership : List MemberOwnershipEntry
  deriving DecidableEq

/-- One proposed sell allocation (`calculateSellAllocations` result row). -/
structure SellAllocation where
  member_id : String
  amount : ℚ
  percentage : ℚ
  deriving DecidableEq

/-! ### Association-list model of JavaScript `Map` -/

/-- `Map.get`: first entry with the given key, if any. -/
def lookupA {α : Type} (l : List (String × α)) (k : String) : Option α :=
  (l.find? (fun p => decide (p.1 = k))).map (fun p => p.2)

/-- `Map.get(k) || 0` on a numeric map. -/
def getQ (l : List (String × ℚ)) (k : String) : ℚ :=
  (lookupA l k).getD 0

/-- `Map.set`: update the entry in place if present, append otherwise. -/
def setA {α : Type} : List (String × α) → String → α → List (String × α)
  | [], k, v => [(k, v)]
  | p :: l, k, v => if p.1 = k then (k, v) :: l else p :: setA l k v

/-- The key list of an association map. -/
abbrev keysOf {α : Type} (l : List (String × α)) : List String :=
  l.map Prod.fst

/-- Nested map: memberId → stockId → rational figure. -/
abbrev SharesMap := List (String × List (String × ℚ))

/-- `memberShares.get(memberId)` defaulted to an empty inner map (covers
both the `?.` chain and the `get(id)!` on a key present by construction). -/
def sharesOf (sm : SharesMap) (memberId : String) : List (String × ℚ) :=
  (lookupA sm memberId).getD []

/-- Fold that propagates a crash (`none`), used for the allocation
replay whose body can throw. -/
def foldOpt {β α : Type} (f : β → α → Option β) : List α → β → Option β
  | [], b => some b
  | a :: l, b =>
    match f b a with
    | none => none
    | some b2 => foldOpt f l b2

/-! ### Cash Ledger Aggregator (`calculateMemberCash`, lines 22-59) -/

/-- Sum of a member's contribution amounts. -/
def totalContribFor (data : CalculationData) (memberId : String) : ℚ :=
  ((data.contributions.filter (fun c => decide (c.member_id = memberId))).map
    (fun c => c.amount)).sum

/-- Sum of a member's allocation amounts on buy transactions
(`buyTransactionIds.has` becomes an `any` over the buy transactions). -/
def totalBuysFor (data : CalculationData) (memberId : String) : ℚ :=
  ((data.allocations.filter (fun a =>
      decide (a.member_id = memberId) &&
      (data.transactions.filter (fun t => decide (t.txType = TxType.buy))).any
        (fun t => decide (t.id = a.transaction_id)))).map (fun a => a.amount)).sum

/-- Sum of a member's allocation amounts on sell transactions. -/
def totalSellsFor (data : CalculationData) (memberId : String) : ℚ :=
  ((data.allocations.filter (fun a =>
      decide (a.member_id = memberId) &&
      (data.transactions.filter (fun t => decide (t.txType = TxType.sell))).any
        (fun t => decide (t.id = a.transaction_id)))).map (fun a => a.amount)).sum

/-- The record stored for one member by `calculateMemberCash`. -/
def poolFor (data : CalculationData) (member : FamilyMember) : MemberCashPool :=
  { member_id := member.id
    member_name := member.name
    total_contributions := totalContribFor data member.id
    total_buys := totalBuysFor data member.id
    total_sells := totalSellsFor data member.id
    available_cash :=
      totalContribFor data member.id - totalBuysFor data member.id +
        totalSellsFor data member.id }

/-- One `cashMap.set(member.id, {...})` step of `calculateMemberCash`. -/
def cashStep (data : CalculationData) (cashMap : List (String × MemberCashPool))
    (member : FamilyMember) : List (String × MemberCashPool) :=
  setA cashMap member.id (poolFor data member)

/-- `calculateMemberCash`: available cash per member. -/
def calculateMemberCash (data : CalculationData) : List (String × MemberCashPool) :=
  data.members.foldl (cashStep data) []

/-! ### Allocation Aggregator (`calculateMemberShares`, lines 62-99) -/

/-- Replay of one allocation of one transaction onto the shares map.
`none` models the TypeError thrown by the source when
`sharesMap.get(allocation.member_id)` is undefined (unknown member). -/
def applyAllocation (sm : SharesMap) (t : Transaction)
    (a : TransactionAllocation) : Option SharesMap :=
  match lookupA sm a.member_id with
  | none => none
  | some memberShares =>
    let currentShares := getQ memberShares t.stock_id
    let sharesForAllocation := t.quantity * a.percentage
    let updated :=
      match t.txType with
      | TxType.buy => currentShares + sharesForAllocation
      | TxType.sell => currentShares - sharesForAllocation
    some (setA sm a.member_id (setA memberShares t.stock_id updated))

/-- Replay of all allocations attached to one transaction. -/
def processTx (allocations : List TransactionAllocation) (sm : SharesMap)
    (t : Transaction) : Option SharesMap :=
  foldOpt (fun sm2 a => applyAllocation sm2 t a)
    (allocations.filter (fun a => decide (a.transaction_id = t.id))) sm

/-- The shares map initialised with an empty inner map per member. -/
def initShares (members : List FamilyMember) : SharesMap :=
  members.foldl (fun sm member => setA sm member.id []) []

/-- `calculateMemberShares`: signed share count per member per stock;
`none` models the TypeError crash on an allocation whose member is
unknown (triggered only when its transaction id matches a transaction). -/
def calculateMemberShares (data : CalculationData) : Option SharesMap :=
  foldOpt (processTx data.allocations) data.transactions (initShares data.members)

/-! ### Cost Basis Aggregator (`calculateCostBasis`, lines 138-165) -/

/-- Replay of one allocation onto the cost-basis map; an allocation whose
transaction id matches no transaction is skipped (`if (!transaction) return`). -/
def costBasisStep (transactions : List Transaction) (m : SharesMap)
    (a : TransactionAllocation) : SharesMap :=
  match transactions.find? (fun t => decide (t.id = a.transaction_id)) with
  | none => m
  | some t =>
    let memberCostBasis := (lookupA m a.member_id).getD []
    let currentCostBasis := getQ memberCostBasis t.stock_id
    let updated :=
      match t.txType with
      | TxType.buy => currentCostBasis + a.amount
      | TxType.sell => currentCostBasis - a.amount
    setA m a.member_id (setA memberCostBasis t.stock_id updated)

/-- `calculateCostBasis`: net invested amount per member per stock. -/
def calculateCostBasis (data : CalculationData) : SharesMap :=
  data.allocations.foldl (costBasisStep data.transactions) []

/-! ### Valuation & Summary Builder (`calculatePortfolioSummary`, lines 168-234) -/

/-- One iteration of the `stocks.forEach` loop of the summary: accumulate
a member's stock value and cost basis. -/
def stockValueStep (shares memberCostBasisMap : List (String × ℚ)) (acc : ℚ × ℚ)
    (stock : Stock) : ℚ × ℚ :=
  (acc.1 + getQ shares stock.id * (stock.current_price.getD 0),
   acc.2 + getQ memberCostBasisMap stock.id)

/-- One member's row of the portfolio summary, before the
ownership-percentage pass. -/
def memberSummary (stocks : List Stock) (memberCash : List (String × MemberCashPool))
    (sharesMap : SharesMap) (costBasisMap : SharesMap)
    (member : FamilyMember) : MemberPortfolioSummary :=
  let cash := (lookupA memberCash member.id).getD
    { member_id := member.id, member_name := member.name,
      total_contributions := 0, total_buys := 0, total_sells := 0, available_cash := 0 }
  let shares := sharesOf sharesMap member.id
  let memberCostBasisMap := (lookupA costBasisMap member.id).getD []
  let acc := stocks.foldl (stockValueStep shares memberCostBasisMap) (0, 0)
  let currentStockValue := acc.1
  let memberTotalCostBasis := acc.2
  let totalValue := currentStockValue + cash.available_cash
  let gainLoss := currentStockValue - memberTotalCostBasis
  { memberId := member.id
    memberName := member.name
    totalContributions := cash.total_contributions
    currentStockValue := currentStockValue
    availableCash := cash.available_cash
    totalValue := totalValue
    costBasis := memberTotalCostBasis
    gainLoss := gainLoss
    gainLossPercentage :=
      if 0 < memberTotalCostBasis then gainLoss / memberTotalCostBasis * 100 else 0
    ownershipPercentage := 0 }

/-- The member breakdown before the ownership-percentage pass. -/
def memberBreakdown0 (data : CalculationData) (sharesMap : SharesMap) :
    List MemberPortfolioSummary :=
  data.members.map
    (memberSummary data.stocks (calculateMemberCash data) sharesMap (calculateCostBasis data))

/-- Summary construction given an already computed shares map. -/
def buildSummary (data : CalculationData) (sharesMap : SharesMap) : PortfolioSummary :=
  let b0 := memberBreakdown0 data sharesMap
  let totalValue := (b0.map (fun m => m.totalValue)).sum
  let totalCostBasis := (b0.map (fun m => m.costBasis)).sum
  let totalCash := (b0.map (fun m => m.availableCash)).sum
  let totalGainLoss := totalValue - totalCash - totalCostBasis
  { totalValue := totalValue
    totalCostBasis := totalCostBasis
    totalGainLoss := totalGainLoss
    totalGainLossPercentage :=
      if 0 < totalCostBasis then totalGainLoss / totalCostBasis * 100 else 0
    totalCash := totalCash
    memberBreakdown := b0.map (fun m =>
      { m with ownershipPercentage :=
          if 0 < totalValue then m.totalValue / totalValue * 100 else 0 }) }

/-- `calculatePortfolioSummary`; the `Option` propagates the shares-map
crash on a snapshot with an unknown allocation member. -/
def calculatePortfolioSummary (data : CalculationData) : Option PortfolioSummary :=
  (calculateMemberShares data).map (buildSummary data)

/-! ### Per-security summary (`calculateStockWithOwnership`, lines 237-285) -/

/-- One iteration of the `members.forEach` loop of the per-security
summary: members with positive shares are accumulated and listed. -/
def stockOwnStep (stock : Stock) (sharesMap costBasisMap : SharesMap)
    (acc : ℚ × ℚ × List MemberOwnershipEntry) (member : FamilyMember) :
    ℚ × ℚ × List MemberOwnershipEntry :=
  let shares := getQ (sharesOf sharesMap member.id) stock.id
  let memberCostBasis := getQ ((lookupA costBasisMap member.id).getD []) stock.id
  let value := shares * (stock.current_price.getD 0)
  if 0 < shares then
    (acc.1 + shares, acc.2.1 + memberCostBasis,
     acc.2.2 ++ [{ memberId := member.id, memberName := member.name,
                   shares := shares, value := value, percentage := 0 }])
  else acc

/-- Per-security summary given an already computed shares map. -/
def buildStockWithOwnership (stock : Stock) (data : CalculationData)
    (sharesMap : SharesMap) : StockWithOwnership :=
  let costBasisMap := calculateCostBasis data
  let acc := data.members.foldl (stockOwnStep stock sharesMap costBasisMap) (0, 0, [])
  let totalShares := acc.1
  let totalCostBasis := acc.2.1
  let memberOwnership := acc.2.2.map (fun mo =>
    { mo with percentage := if 0 < totalShares then mo.shares / totalShares * 100 else 0 })
  let currentValue := totalShares * (stock.current_price.getD 0)
  let gainLoss := currentValue - totalCostBasis
  { stock := stock
    sharesOwned := totalShares
    currentValue := currentValue
    costBasis := totalCostBasis
    gainLoss := gainLoss
    gainLossPercentage :=
      if 0 < totalCostBasis then gainLoss / totalCostBasis * 100 else 0
    memberOwnership := memberOwnership }

/-- `calculateStockWithOwnership`. -/
def calculateStockWithOwnership (stock : Stock) (data : CalculationData) :
    Option StockWithOwnership :=
  (calculateMemberShares data).map (buildStockWithOwnership stock data)

/-! ### Sell-Allocation Proposer (`calculateSellAllocations`, lines 288-321) -/

/-- One iteration of the proposer's `memberShares.forEach` loop: members
with positive shares receive a proportional allocation. -/
def sellAllocStep (stockId : String) (totalShares totalAmount : ℚ)
    (acc : List SellAllocation) (p : String × List (String × ℚ)) : List SellAllocation :=
  let shares := getQ p.2 stockId
  if 0 < shares then
    acc ++ [{ member_id := p.1, amount := totalAmount * (shares / totalShares),
              percentage := shares / totalShares }]
  else acc

/-- Sell proposal given an already computed shares map. -/
def buildSellAllocations (stockId : String) (quantity pricePerShare : ℚ)
    (sharesMap : SharesMap) : List SellAllocation :=
  let totalShares := (sharesMap.map (fun p => getQ p.2 stockId)).sum
  if totalShares = 0 then []
  else
    let totalAmount := quantity * pricePerShare
    sharesMap.foldl (sellAllocStep stockId totalShares totalAmount) []

/-- `calculateSellAllocations`. -/
def calculateSellAllocations (stockId : String) (quantity pricePerShare : ℚ)
    (data : CalculationData) : Option (List SellAllocation) :=
  (calculateMemberShares data).map (buildSellAllocations stockId quantity pricePerShare)

/-! ### Concrete snapshots used by closed theorems and witnesses -/

/-- Member A of the spec's concrete scenario. -/
def memA : FamilyMember := { id := "A", name := "Alice" }

/-- Member B of the spec's concrete scenario. -/
def memB : FamilyMember := { id := "B", name := "Bob" }

/-- Security X of the spec's concrete scenario, current price 120. -/
def stockX : Stock := { id := "X", symbol := "X", name := "X Corp", current_price := some 120 }

/-- The spec's concrete scenario: contributions of 1000 each, one buy of
10 shares of X at 100 per share allocated 600 to A and 400 to B. -/
def exData : CalculationData :=
  { members := [memA, memB]
    contributions := [{ member_id := "A", amount := 1000 }, { member_id := "B", amount := 1000 }]
    stocks := [stockX]
    transactions := [{ id := "T1", stock_id := "X", txType := TxType.buy,
                       quantity := 10, price_per_share := 100, total_amount := 1000 }]
    allocations := [{ transaction_id := "T1", member_id := "A", amount := 600, percentage := 3/5 },
                    { transaction_id := "T1", member_id := "B", amount := 400, percentage := 2/5 }] }

/-- The shares map the engine computes on `exData`. -/
def exSharesMap : SharesMap := [("A", [("X", 6)]), ("B", [("X", 4)])]

/-- Security Y, current price 10, used by the smaller snapshots. -/
def stockY : Stock := { id := "Y", symbol := "Y", name := "Y Corp", current_price := some 10 }

/-- Security N with unknown (null) market price. -/
def stockN : Stock := { id := "N", symbol := "N", name := "N Corp", current_price := none }

/-- A one-member snapshot whose only contribution is negative, making the
portfolio total strictly negative. -/
def negTotalData : CalculationData :=
  { members := [memA]
    contributions := [{ member_id := "A", amount := -100 }]
    stocks := []
    transactions := []
    allocations := [] }

/-- A snapshot with a negative member cash balance (A) and a negative
member cost basis (B): A contributes 100 but is allocated a 300 buy; B is
allocated a 500 sell with only 1000 contributed and no prior buy. -/
def negFigsData : CalculationData :=
  { members := [memA, memB]
    contributions := [{ member_id := "A", amount := 100 }, { member_id := "B", amount := 1000 }]
    stocks := [stockY]
    transactions := [{ id := "T1", stock_id := "Y", txType := TxType.buy,
                       quantity := 1, price_per_share := 300, total_amount := 300 },
                     { id := "T2", stock_id := "Y", txType := TxType.sell,
                       quantity := 1, price_per_share := 500, total_amount := 500 }]
    allocations := [{ transaction_id := "T1", member_id := "A", amount := 300, percentage := 1 },
                    { transaction_id := "T2", member_id := "B", amount := 500, percentage := 1 }] }

/-- A one-member snapshot in which A's net share count of Y is negative
(a sell with no prior buy). -/
def negSharesData : CalculationData :=
  { members := [memA]
    contributions := []
    stocks := [stockY]
    transactions := [{ id := "T1", stock_id := "Y", txType := TxType.sell,
                       quantity := 5, price_per_share := 10, total_amount := 50 }]
    allocations := [{ transaction_id := "T1", member_id := "A", amount := 50, percentage := 1 }] }

/-- A two-member snapshot in which A's net share count of Y is negative
while B's is positive, so the outstanding total (5) is smaller than B's
holding (10). -/
def mixedSharesData : CalculationData :=
  { members := [memA, memB]
    contributions := []
    stocks := [stockY]
    transactions := [{ id := "T1", stock_id := "Y", txType := TxType.buy,
                       quantity := 10, price_per_share := 1, total_amount := 10 },
                     { id := "T2", stock_id := "Y", txType := TxType.sell,
                       quantity := 5, price_per_share := 1, total_amount := 5 }]
    allocations := [{ transaction_id := "T1", member_id := "B", amount := 10, percentage := 1 },
                    { transaction_id := "T2", member_id := "A", amount := 5, percentage := 1 }] }

/-- A snapshot whose only allocation names member id B, which does not
exist in the member list (its transaction id does exist). -/
def danglingMemberData : CalculationData :=
  { members := [memA]
    contributions := []
    stocks := [stockX]
    transactions := [{ id := "T1", stock_id := "X", txType := TxType.buy,
                       quantity := 1, price_per_share := 10, total_amount := 10 }]
    allocations := [{ transaction_id := "T1", member_id := "B", amount := 10, percentage := 1 }] }

/-- A one-member snapshot holding only a security with a null price. -/
def nullPriceData : CalculationData :=
  { members := [memA]
    contributions := []
    stocks := [stockN]
    transactions := []
    allocations := [] }

/-- The breakdown row the summary computes for member A of
`nullPriceData` (everything 0: no contributions, only a null-price
security). -/
def nullMemberRow : MemberPortfolioSummary :=
  { memberId := "A", memberName := "Alice", totalContributions := 0,
    currentStockValue := 0, availableCash := 0, totalValue := 0, costBasis := 0,
    gainLoss := 0, gainLossPercentage := 0, ownershipPercentage := 0 }

/-- The cash map assigns key `k` a defined entry carrying the four
figures the source computes for `k`. -/
def cashEntryCorrect (data : CalculationData)
    (cashMap : List (String × MemberCashPool)) (k : String) : Prop :=
  ∃ pool, lookupA cashMap k = some pool ∧
    pool.member_id = k ∧
    pool.total_contributions = totalContribFor data k ∧
    pool.total_buys = totalBuysFor data k ∧
    pool.total_sells = totalSellsFor data k ∧
    pool.available_cash =
      totalContribFor data k - totalBuysFor data k + totalSellsFor data k

/-- The shares map computed on the concrete scenario: A holds 6 shares of
X, B holds 4. -/
lemma exShares : calculateMemberShares exData = some exSharesMap := by
  rw [show (some exSharesMap : Option SharesMap) =
      some [("A", [("X", 6)]), ("B", [("X", 4)])] from rfl]
  simp [exData, memA, memB, stockX, calculateMemberShares, processTx, applyAllocation,
    initShares, foldOpt, setA, lookupA, getQ, sharesOf]
  norm_num

/-- The cash map computed on the concrete scenario. -/
lemma exCash : calculateMemberCash exData =
    [("A", { member_id := "A", member_name := "Alice", total_contributions := 1000,
             total_buys := 600, total_sells := 0, available_cash := 400 }),
     ("B", { member_id := "B", member_name := "Bob", total_contributions := 1000,
             total_buys := 400, total_sells := 0, available_cash := 600 })] := by
  simp [exData, memA, memB, stockX, calculateMemberCash, cashStep, poolFor, totalContribFor,
    totalBuysFor, totalSellsFor, setA, lookupA]
  norm_num

/-- The cost-basis map computed on the concrete scenario. -/
lemma exCostBasis : calculateCostBasis exData =
    [("A", [("X", 600)]), ("B", [("X", 400)])] := by
  simp [exData, memA, memB, stockX, calculateCostBasis, costBasisStep, setA, lookupA, getQ]

example : (calculatePortfolioSummary exData).map (fun S => S.totalGainLoss) = some 200 := by
  rw [calculatePortfolioSummary, exShares]
  simp only [Option.map_some', buildSummary, memberBreakdown0, exCash, exCostBasis]
  simp [memberSummary, stockValueStep, exData, exSharesMap, memA, memB, stockX, setA,
    lookupA, getQ, sharesOf]
  norm_num

/-! ### Association-list lemmas -/

lemma lookupA_nil {α : Type} (k : String) : lookupA ([] : List (String × α)) k = none := rfl

lemma lookupA_cons {α : Type} (p : String × α) (l : List (String × α)) (k : String) :
    lookupA (p :: l) k = if p.1 = k then some p.2 else lookupA l k := by
  by_cases h : p.1 = k
  · simp [lookupA, List.find?, h]
  · simp [lookupA, List.find?, h]

lemma setA_cons_eq {α : Type} {k : String} (p : String × α) (l : List (String × α)) (v : α)
    (h : p.1 = k) : setA (p :: l) k v = (k, v) :: l := by
  simp [setA, h]

lemma setA_cons_ne {α : Type} {k : String} (p : String × α) (l : List (String × α)) (v : α)
    (h : p.1 ≠ k) : setA (p :: l) k v = p :: setA l k v := by
  simp [setA, h]

lemma lookupA_setA_self {α : Type} (l : List (String × α)) (k : String) (v : α) :
    lookupA (setA l k v) k = some v := by
  induction l with
  | nil => simp [setA, lookupA_cons]
  | cons p l ih =>
    by_cases h : p.1 = k
    · rw [setA_cons_eq p l v h, lookupA_cons]
      simp
    · rw [setA_cons_ne p l v h, lookupA_cons, if_neg h]
      exact ih

lemma lookupA_setA_ne {α : Type} (l : List (String × α)) (k k2 : String) (v : α)
    (h : k2 ≠ k) : lookupA (setA l k v) k2 = lookupA l k2 := by
  have hkk2 : ¬(k = k2) := fun hh => h hh.symm
  induction l with
  | nil => simp [setA, lookupA_cons, lookupA_nil, hkk2]
  | cons p l ih =>
    by_cases hp : p.1 = k
    · rw [setA_cons_eq p l v hp, lookupA_cons, lookupA_cons, if_neg hkk2,
        if_neg (show ¬(p.1 = k2) by rw [hp]; exact hkk2)]
    · rw [setA_cons_ne p l v hp, lookupA_cons, lookupA_cons, ih]

lemma keysOf_setA_of_mem {α : Type} (l : List (String × α)) (k : String) (v : α)
    (h : k ∈ keysOf l) : keysOf (setA l k v) = keysOf l := by
  induction l with
  | nil => simp at h
  | cons p l ih =>
    by_cases hp : p.1 = k
    · rw [setA_cons_eq p l v hp]
      simp [hp]
    · rw [setA_cons_ne p l v hp]
      have hmem : k ∈ keysOf l := by
        rcases List.mem_cons.mp h with h1 | h1
        · exact absurd h1.symm hp
        · exact h1
      exact congrArg (List.cons p.1) (ih hmem)

lemma keysOf_setA_of_not_mem {α : Type} (l : List (String × α)) (k : String) (v : α)
    (h : k ∉ keysOf l) : keysOf (setA l k v) = keysOf l ++ [k] := by
  induction l with
  | nil => simp [setA]
  | cons p l ih =>
    have hp : p.1 ≠ k := by
      intro hh
      exact h (List.mem_cons.mpr (Or.inl hh.symm))
    rw [setA_cons_ne p l v hp]
    have hmem : k ∉ keysOf l := by
      intro hh
      exact h (List.mem_cons.mpr (Or.inr hh))
    exact congrArg (List.cons p.1) (ih hmem)

lemma lookupA_isSome_iff {α : Type} (l : List (String × α)) (k : String) :
    (lookupA l k).isSome ↔ k ∈ keysOf l := by
  induction l with
  | nil => simp [lookupA_nil]
  | cons p l ih =>
    rw [lookupA_cons]
    by_cases h : p.1 = k
    · simp [h]
    · rw [if_neg h]
      simp only [List.map_cons, List.mem_cons]
      rw [ih]
      constructor
      · intro hm
        exact Or.inr hm
      · rintro (hm | hm)
        · exact absurd hm.symm h
        · exact hm

lemma lookupA_none_iff {α : Type} (l : List (String × α)) (k : String) :
    lookupA l k = none ↔ k ∉ keysOf l := by
  rw [← lookupA_isSome_iff]
  cases lookupA l k <;> simp

/-! ### Crash-propagating fold lemmas -/

lemma foldOpt_nil {β α : Type} (f : β → α → Option β) (b : β) :
    foldOpt f [] b = some b := rfl

lemma foldOpt_cons {β α : Type} (f : β → α → Option β) (a : α) (l : List α) (b : β) :
    foldOpt f (a :: l) b =
      match f b a with
      | none => none
      | some b2 => foldOpt f l b2 := rfl

/-- A fold whose every step succeeds and preserves an invariant succeeds
and preserves the invariant. -/
lemma foldOpt_some {β α : Type} (P : β → Prop) (f : β → α → Option β) :
    ∀ (l : List α) (b : β), P b →
      (∀ b2 a, a ∈ l → P b2 → ∃ b3, f b2 a = some b3 ∧ P b3) →
      ∃ b2, foldOpt f l b = some b2 ∧ P b2 := by
  intro l
  induction l with
  | nil => exact fun b hb _ => ⟨b, rfl, hb⟩
  | cons a l ih =>
    intro b hb hstep
    obtain ⟨b2, hfa, hb2⟩ := hstep b a (List.mem_cons_self a l) hb
    obtain ⟨b3, hfold, hb3⟩ :=
      ih b2 hb2 (fun b4 a2 ha2 hb4 => hstep b4 a2 (List.mem_cons_of_mem a ha2) hb4)
    exact ⟨b3, by rw [foldOpt_cons, hfa]; exact hfold, hb3⟩

/-- A successful fold whose steps preserve the key list preserves the
key list. -/
lemma foldOpt_keys {α : Type} (f : SharesMap → α → Option SharesMap)
    (hf : ∀ b a b2, f b a = some b2 → keysOf b2 = keysOf b) :
    ∀ (l : List α) (b b2 : SharesMap), foldOpt f l b = some b2 → keysOf b2 = keysOf b := by
  intro l
  induction l with
  | nil =>
    intro b b2 h
    rw [foldOpt_nil] at h
    cases h
    rfl
  | cons a l ih =>
    intro b b2 h
    rw [foldOpt_cons] at h
    cases hfa : f b a with
    | none => rw [hfa] at h; cases h
    | some b3 =>
      rw [hfa] at h
      exact (ih b3 b2 h).trans (hf b a b3 hfa)

/-! ### Shares-map lemmas -/

/-- `applyAllocation` succeeds precisely on members present in the map. -/
lemma applyAllocation_isSome_iff (sm : SharesMap) (t : Transaction)
    (a : TransactionAllocation) :
    (applyAllocation sm t a).isSome ↔ a.member_id ∈ keysOf sm := by
  rw [← lookupA_isSome_iff]
  cases h : lookupA sm a.member_id <;> simp [applyAllocation, h]

/-- `applyAllocation` preserves the member key list. -/
lemma applyAllocation_keys (sm : SharesMap) (t : Transaction)
    (a : TransactionAllocation) (sm2 : SharesMap)
    (h : applyAllocation sm t a = some sm2) : keysOf sm2 = keysOf sm := by
  cases hl : lookupA sm a.member_id with
  | none => rw [applyAllocation, hl] at h; cases h
  | some inner =>
    rw [applyAllocation, hl] at h
    cases h
    exact keysOf_setA_of_mem sm a.member_id _
      ((lookupA_isSome_iff sm a.member_id).mp (by rw [hl]; rfl))

/-- Membership in the initial shares map is membership among member ids. -/
lemma mem_keysOf_initShares (members : List FamilyMember) (k : String) :
    k ∈ keysOf (initShares members) ↔ k ∈ members.map (fun m => m.id) := by
  suffices hgen : ∀ (l : List FamilyMember) (acc : SharesMap),
      k ∈ keysOf (l.foldl (fun sm member => setA sm member.id []) acc) ↔
        k ∈ keysOf acc ∨ k ∈ l.map (fun m => m.id) by
    have := hgen members []
    simpa [initShares] using this
  intro l
  induction l with
  | nil => simp
  | cons m l ih =>
    intro acc
    rw [List.foldl_cons, ih]
    by_cases hmem : m.id ∈ keysOf acc
    · rw [keysOf_setA_of_mem acc m.id [] hmem]
      constructor
      · rintro (h | h)
        · exact Or.inl h
        · exact Or.inr (List.mem_cons_of_mem _ h)
      · rintro (h | h)
        · exact Or.inl h
        · rcases List.mem_cons.mp h with h1 | h1
          · exact Or.inl (h1 ▸ hmem)
          · exact Or.inr h1
    · rw [keysOf_setA_of_not_mem acc m.id [] hmem]
      constructor
      · rintro (h | h)
        · rcases List.mem_append.mp h with h1 | h1
          · exact Or.inl h1
          · exact Or.inr (List.mem_cons.mpr (Or.inl (List.mem_singleton.mp h1)))
        · exact Or.inr (List.mem_cons_of_mem _ h)
      · rintro (h | h)
        · exact Or.inl (List.mem_append.mpr (Or.inl h))
        · rcases List.mem_cons.mp h with h1 | h1
          · exact Or.inl (List.mem_append.mpr (Or.inr (List.mem_singleton.mpr h1)))
          · exact Or.inr h1

/-- With distinct member ids the initial shares map lists exactly the
member ids, in order. -/
lemma keysOf_initShares_of_nodup (members : List FamilyMember)
    (h : (members.map (fun m => m.id)).Nodup) :
    keysOf (initShares members) = members.map (fun m => m.id) := by
  suffices hgen : ∀ (l : List FamilyMember) (acc : SharesMap),
      (keysOf acc ++ l.map (fun m => m.id)).Nodup →
      keysOf (l.foldl (fun sm member => setA sm member.id []) acc) =
        keysOf acc ++ l.map (fun m => m.id) by
    have := hgen members [] (by simpa using h)
    simpa [initShares] using this
  intro l
  induction l with
  | nil => intro acc _; simp
  | cons m l ih =>
    intro acc hnd
    have hm : m.id ∉ keysOf acc := by
      intro hmem
      rcases List.nodup_append.mp hnd with ⟨_, _, hdisj⟩
      exact hdisj hmem (List.mem_cons_self _ _)
    rw [List.foldl_cons, ih (setA acc m.id [])
        (by rw [keysOf_setA_of_not_mem acc m.id [] hm]
            simpa [List.append_assoc] using hnd),
      keysOf_setA_of_not_mem acc m.id [] hm]
    simp

/-! ### Summation helpers -/

lemma sum_map_add {α : Type} (l : List α) (f g : α → ℚ) :
    (l.map (fun x => f x + g x)).sum = (l.map f).sum + (l.map g).sum := by
  induction l with
  | nil => simp
  | cons a l ih =>
    simp only [List.map_cons, List.sum_cons, ih]
    ring

lemma sum_map_sub {α : Type} (l : List α) (f g : α → ℚ) :
    (l.map (fun x => f x - g x)).sum = (l.map f).sum - (l.map g).sum := by
  induction l with
  | nil => simp
  | cons a l ih =>
    simp only [List.map_cons, List.sum_cons, ih]
    ring

lemma sum_map_div_mul {α : Type} (l : List α) (f : α → ℚ) (T c : ℚ) :
    (l.map (fun x => f x / T * c)).sum = (l.map f).sum / T * c := by
  induction l with
  | nil => simp
  | cons a l ih =>
    simp only [List.map_cons, List.sum_cons, ih]
    ring

lemma sum_filter_of_zero_out {α : Type} (p : α → Bool) (f : α → ℚ) :
    ∀ (l : List α), (∀ x ∈ l, p x = false → f x = 0) →
      ((l.filter p).map f).sum = (l.map f).sum := by
  intro l
  induction l with
  | nil => simp
  | cons a l ih =>
    intro h
    cases hpa : p a with
    | true =>
      simp only [List.filter_cons, hpa, if_true, List.map_cons, List.sum_cons]
      rw [ih (fun x hx hpx => h x (List.mem_cons_of_mem a hx) hpx)]
    | false =>
      simp only [List.filter_cons, hpa, Bool.false_eq_true, if_false, List.map_cons,
        List.sum_cons, h a (List.mem_cons_self a l) hpa]
      rw [ih (fun x hx hpx => h x (List.mem_cons_of_mem a hx) hpx)]
      ring

lemma sum_pos_of_pos : ∀ (l : List ℚ), (∀ x ∈ l, 0 < x) → l ≠ [] → 0 < l.sum := by
  intro l
  induction l with
  | nil => exact fun _ hne => absurd rfl hne
  | cons a l ih =>
    intro h _
    rw [List.sum_cons]
    have ha := h a (List.mem_cons_self a l)
    cases l with
    | nil => simpa using ha
    | cons b l2 =>
      have hl := ih (fun x hx => h x (List.mem_cons_of_mem a hx)) (by simp)
      linarith

/-! ### Fold-to-filter characterisations -/

/-- The sell-proposer loop appends exactly one entry per positive-share
map entry, in map order. -/
lemma sellAlloc_foldl_eq (stockId : String) (totalShares totalAmount : ℚ) :
    ∀ (l : SharesMap) (acc : List SellAllocation),
      l.foldl (sellAllocStep stockId totalShares totalAmount) acc =
        acc ++ (l.filter (fun p => decide (0 < getQ p.2 stockId))).map
          (fun p => { member_id := p.1,
                      amount := totalAmount * (getQ p.2 stockId / totalShares),
                      percentage := getQ p.2 stockId / totalShares }) := by
  intro l
  induction l with
  | nil => simp
  | cons p l ih =>
    intro acc
    rw [List.foldl_cons]
    by_cases hp : 0 < getQ p.2 stockId
    · rw [show sellAllocStep stockId totalShares totalAmount acc p =
          acc ++ [{ member_id := p.1,
                    amount := totalAmount * (getQ p.2 stockId / totalShares),
                    percentage := getQ p.2 stockId / totalShares }] by
            simp [sellAllocStep, hp]]
      rw [ih]
      simp [List.filter_cons, hp]
    · rw [show sellAllocStep stockId totalShares totalAmount acc p = acc by
            simp [sellAllocStep, hp]]
      rw [ih]
      simp [List.filter_cons, hp]

/-- The per-security-summary loop accumulates the positive-share members'
share and cost-basis sums and lists them in member order. -/
lemma stockOwn_foldl_eq (stock : Stock) (sharesMap costBasisMap : SharesMap) :
    ∀ (l : List FamilyMember) (s0 c0 : ℚ) (acc : List MemberOwnershipEntry),
      l.foldl (stockOwnStep stock sharesMap costBasisMap) (s0, c0, acc) =
        (s0 + ((l.filter (fun m => decide (0 < getQ (sharesOf sharesMap m.id) stock.id))).map
            (fun m => getQ (sharesOf sharesMap m.id) stock.id)).sum,
         c0 + ((l.filter (fun m => decide (0 < getQ (sharesOf sharesMap m.id) stock.id))).map
            (fun m => getQ ((lookupA costBasisMap m.id).getD []) stock.id)).sum,
         acc ++ (l.filter (fun m => decide (0 < getQ (sharesOf sharesMap m.id) stock.id))).map
            (fun m => { memberId := m.id, memberName := m.name,
                        shares := getQ (sharesOf sharesMap m.id) stock.id,
                        value := getQ (sharesOf sharesMap m.id) stock.id *
                          (stock.current_price.getD 0),
                        percentage := 0 })) := by
  intro l
  induction l with
  | nil => simp
  | cons m l ih =>
    intro s0 c0 acc
    rw [List.foldl_cons]
    by_cases hp : 0 < getQ (sharesOf sharesMap m.id) stock.id
    · rw [show stockOwnStep stock sharesMap costBasisMap (s0, c0, acc) m =
          (s0 + getQ (sharesOf sharesMap m.id) stock.id,
           c0 + getQ ((lookupA costBasisMap m.id).getD []) stock.id,
           acc ++ [{ memberId := m.id, memberName := m.name,
                     shares := getQ (sharesOf sharesMap m.id) stock.id,
                     value := getQ (sharesOf sharesMap m.id) stock.id *
                       (stock.current_price.getD 0),
                     percentage := 0 }]) by simp [stockOwnStep, hp]]
      rw [ih]
      simp [List.filter_cons, hp, add_assoc]
    · rw [show stockOwnStep stock sharesMap costBasisMap (s0, c0, acc) m = (s0, c0, acc) by
            simp [stockOwnStep, hp]]
      rw [ih]
      simp [List.filter_cons, hp]

/-! ### Cost-basis: dangling allocations -/

lemma costBasis_foldl_filter (ts : List Transaction) :
    ∀ (l : List TransactionAllocation) (acc : SharesMap),
      (l.filter (fun a => ts.any (fun t => decide (t.id = a.transaction_id)))).foldl
        (costBasisStep ts) acc = l.foldl (costBasisStep ts) acc := by
  intro l
  induction l with
  | nil => intro acc; rfl
  | cons a l ih =>
    intro acc
    cases hmatch : ts.any (fun t => decide (t.id = a.transaction_id)) with
    | true =>
      rw [List.filter_cons, if_pos (by rw [hmatch]), List.foldl_cons, List.foldl_cons, ih]
    | false =>
      have hfind : ts.find? (fun t => decide (t.id = a.transaction_id)) = none := by
        rw [List.find?_eq_none]
        intro t ht
        have := List.any_eq_false.mp hmatch t ht
        simpa using this
      have hskip : costBasisStep ts acc a = acc := by
        rw [costBasisStep, hfind]
      rw [List.filter_cons, if_neg (by rw [hmatch]; simp), List.foldl_cons, hskip, ih]

/-- C9: `calculateCostBasis` silently ignores every allocation whose
transaction id matches no transaction in the snapshot: the result equals
the result on the snapshot with those dangling allocations removed, and
no error is raised (the function is total). -/
theorem c9_costBasis_ignores_dangling_allocations (data : CalculationData) :
    calculateCostBasis data =
      calculateCostBasis
        { data with
          allocations := data.allocations.filter
            (fun a => data.transactions.any (fun t => decide (t.id = a.transaction_id))) } :=
  (costBasis_foldl_filter data.transactions data.allocations []).symm

/-! ### The concrete scenario (C8) -/

/-- C8: on the spec's concrete snapshot (two members, 1000 contributed
each, a buy of 10 shares of X at 100 split 600/400, current price 120)
the engine computes A's and B's shares of X as 6 and 4, available cash
400 and 600, stock values 720 and 480, cost bases 600 and 400, and
gains 120 and 80. -/
theorem c8_concrete_scenario :
    ((calculateMemberShares exData).map (fun sm =>
        (getQ (sharesOf sm "A") "X", getQ (sharesOf sm "B") "X")) = some (6, 4)) ∧
    ((lookupA (calculateMemberCash exData) "A").map
        (fun pool => pool.available_cash) = some 400) ∧
    ((lookupA (calculateMemberCash exData) "B").map
        (fun pool => pool.available_cash) = some 600) ∧
    ((calculatePortfolioSummary exData).map (fun S =>
        S.memberBreakdown.map (fun mb =>
          (mb.memberId, mb.currentStockValue, mb.availableCash, mb.costBasis, mb.gainLoss))) =
      some [("A", 720, 400, 600, 120), ("B", 480, 600, 400, 80)]) := by
  refine ⟨?_, ?_, ?_, ?_⟩
  · rw [exShares]
    simp [exSharesMap, getQ, sharesOf, lookupA, List.find?]
  · rw [exCash]
    simp [lookupA, List.find?]
  · rw [exCash]
    simp [lookupA, List.find?]
  · rw [calculatePortfolioSummary, exShares]
    simp only [Option.map_some', buildSummary, memberBreakdown0, exCash, exCostBasis]
    simp [memberSummary, stockValueStep, exData, exSharesMap, memA, memB, stockX, setA,
      lookupA, getQ, sharesOf]
    norm_num

/-! ### Reference handling (C6) -/

lemma danglingShares : calculateMemberShares danglingMemberData = none := by
  simp [danglingMemberData, memA, stockX, calculateMemberShares, processTx, applyAllocation,
    initShares, foldOpt, setA, lookupA, getQ]

/-- C6 counterexample: on a snapshot whose only allocation names the
nonexistent member id B (while its transaction id does exist), the
modelled engine yields no defined result at all — `none`, the image of
the TypeError the source throws through the non-null assertion
`sharesMap.get(allocation.member_id)!` — rather than a structured
`ReferenceNotFound(kind, id)` failure; so the claim that a structured
failure is raised is false on the code. -/
theorem c6_counterexample :
    calculateMemberShares danglingMemberData = none ∧
    calculatePortfolioSummary danglingMemberData = none := by
  refine ⟨danglingShares, ?_⟩
  rw [calculatePortfolioSummary, danglingShares]
  rfl

/-- C6 (amended): whenever every allocation whose transaction id matches
some transaction names an existing member, the replay and the whole
summary succeed: references to nonexistent transaction or security ids
are silently computed through, and malformed economic amounts (negative
cash, negative shares, allocations not summing to the transaction total)
never raise an error; the only failure mode is the undefined-value crash
on an unknown member id, which is a crash, not a structured
`ReferenceNotFound` value. -/
theorem c6_amended_failure_modes (data : CalculationData)
    (h : ∀ a ∈ data.allocations,
        (∃ t ∈ data.transactions, t.id = a.transaction_id) →
        ∃ m ∈ data.members, m.id = a.member_id) :
    (calculateMemberShares data).isSome = true ∧
    (calculatePortfolioSummary data).isSome = true := by
  have hstep : ∀ sm t, t ∈ data.transactions →
      keysOf sm = keysOf (initShares data.members) →
      ∃ sm2, processTx data.allocations sm t = some sm2 ∧
        keysOf sm2 = keysOf (initShares data.members) := by
    intro sm t ht hkeys
    rw [processTx]
    refine foldOpt_some _ _ _ sm hkeys ?_
    intro sm2 a ha hkeys2
    have haf := List.mem_filter.mp ha
    have hta : a.transaction_id = t.id := by
      have := haf.2
      simpa using this
    obtain ⟨m, hm, hmid⟩ := h a haf.1 ⟨t, ht, hta.symm⟩
    have hmem : a.member_id ∈ keysOf sm2 := by
      rw [hkeys2, mem_keysOf_initShares]
      exact List.mem_map.mpr ⟨m, hm, hmid⟩
    obtain ⟨sm3, hsm3⟩ := Option.isSome_iff_exists.mp
      ((applyAllocation_isSome_iff sm2 t a).mpr hmem)
    exact ⟨sm3, hsm3, (applyAllocation_keys sm2 t a sm3 hsm3).trans hkeys2⟩
  obtain ⟨sm, hsm, _⟩ :=
    foldOpt_some (fun b => keysOf b = keysOf (initShares data.members))
      (processTx data.allocations) data.transactions (initShares data.members) rfl
      (fun b t ht hb => hstep b t ht hb)
  have hshares : calculateMemberShares data = some sm := by
    rw [calculateMemberShares]
    exact hsm
  constructor
  · rw [hshares]
    rfl
  · rw [calculatePortfolioSummary, hshares]
    rfl

/-- Witness for the amended C6 on the concrete scenario, whose
allocations all name existing members. -/
theorem c6_witness :
    (∀ a ∈ exData.allocations,
        (∃ t ∈ exData.transactions, t.id = a.transaction_id) →
        ∃ m ∈ exData.members, m.id = a.member_id) ∧
    ((calculateMemberShares exData).isSome = true ∧
     (calculatePortfolioSummary exData).isSome = true) :=
  ⟨by decide, c6_amended_failure_modes exData (by decide)⟩

/-! ### Member cash (C3) -/

lemma cash_foldl_correct (data : CalculationData) :
    ∀ (l : List FamilyMember) (acc : List (String × MemberCashPool)) (k : String),
      ((∃ m ∈ l, m.id = k) ∨ cashEntryCorrect data acc k) →
      cashEntryCorrect data (l.foldl (cashStep data) acc) k := by
  intro l
  induction l with
  | nil =>
    intro acc k h
    rcases h with ⟨m, hm, _⟩ | h
    · cases hm
    · exact h
  | cons m l ih =>
    intro acc k h
    rw [List.foldl_cons]
    by_cases hk : m.id = k
    · rcases h with ⟨m0, hm0, hid0⟩ | h
      all_goals {
        apply ih
        by_cases hrest : ∃ m2 ∈ l, m2.id = k
        · exact Or.inl hrest
        · refine Or.inr ⟨poolFor data m, ?_, ?_, ?_, ?_, ?_, ?_⟩
          · rw [cashStep, ← hk, lookupA_setA_self]
          all_goals simp [poolFor, hk]
      }
    · rcases h with ⟨m0, hm0, hid0⟩ | h
      · rcases List.mem_cons.mp hm0 with h1 | h1
        · exact absurd (h1 ▸ hid0) hk
        · exact ih _ k (Or.inl ⟨m0, h1, hid0⟩)
      · apply ih
        refine Or.inr ?_
        obtain ⟨pool, hpool, hrest⟩ := h
        refine ⟨pool, ?_, hrest⟩
        rw [cashStep, lookupA_setA_ne _ _ _ _ (fun hh => hk hh.symm)]
        exact hpool

/-- C3: for every member of the snapshot, `calculateMemberCash` returns a
defined entry whose `available_cash` is the member's contribution sum
minus the buy-allocation sum plus the sell-allocation sum (each figure
also reported separately), and a member with no contributions and no
allocations gets all four figures equal to 0 with no error raised. -/
theorem c3_member_cash_formula (data : CalculationData) (member : FamilyMember)
    (hmem : member ∈ data.members) :
    cashEntryCorrect data (calculateMemberCash data) member.id ∧
    ((∀ c ∈ data.contributions, c.member_id ≠ member.id) →
     (∀ a ∈ data.allocations, a.member_id ≠ member.id) →
       totalContribFor data member.id = 0 ∧
       totalBuysFor data member.id = 0 ∧
       totalSellsFor data member.id = 0 ∧
       totalContribFor data member.id - totalBuysFor data member.id +
         totalSellsFor data member.id = 0) := by
  constructor
  · exact cash_foldl_correct data data.members [] member.id
      (Or.inl ⟨member, hmem, rfl⟩)
  · intro hc ha
    have h1 : totalContribFor data member.id = 0 := by
      rw [totalContribFor, List.filter_eq_nil_iff.mpr]
      · rfl
      · intro c hcmem
        simpa using hc c hcmem
    have h2 : totalBuysFor data member.id = 0 := by
      rw [totalBuysFor, List.filter_eq_nil_iff.mpr]
      · rfl
      · intro a hamem
        simp [ha a hamem]
    have h3 : totalSellsFor data member.id = 0 := by
      rw [totalSellsFor, List.filter_eq_nil_iff.mpr]
      · rfl
      · intro a hamem
        simp [ha a hamem]
    refine ⟨h1, h2, h3, by rw [h1, h2, h3]; ring⟩

/-- Witness for C3 at member A of the concrete scenario. -/
theorem c3_witness :
    memA ∈ exData.members ∧
    (cashEntryCorrect exData (calculateMemberCash exData) memA.id ∧
     ((∀ c ∈ exData.contributions, c.member_id ≠ memA.id) →
      (∀ a ∈ exData.allocations, a.member_id ≠ memA.id) →
        totalContribFor exData memA.id = 0 ∧
        totalBuysFor exData memA.id = 0 ∧
        totalSellsFor exData memA.id = 0 ∧
        totalContribFor exData memA.id - totalBuysFor exData memA.id +
          totalSellsFor exData memA.id = 0)) :=
  ⟨by decide, c3_member_cash_formula exData memA (by decide)⟩

/-! ### Sell-allocation proposer (C4, C10) -/

lemma processTx_keys (allocations : List TransactionAllocation) (sm : SharesMap)
    (t : Transaction) (sm2 : SharesMap) (h : processTx allocations sm t = some sm2) :
    keysOf sm2 = keysOf sm := by
  rw [processTx] at h
  exact foldOpt_keys (fun sm3 a => applyAllocation sm3 t a)
    (fun b a b2 hb => applyAllocation_keys b t a b2 hb) _ sm sm2 h

lemma calculateMemberShares_keys (data : CalculationData) (sm : SharesMap)
    (hsm : calculateMemberShares data = some sm) :
    keysOf sm = keysOf (initShares data.members) := by
  rw [calculateMemberShares] at hsm
  exact foldOpt_keys (processTx data.allocations)
    (fun b t b2 hb => processTx_keys data.allocations b t b2 hb)
    data.transactions (initShares data.members) sm hsm

lemma sum_map_div {α : Type} (l : List α) (f : α → ℚ) (T : ℚ) :
    (l.map (fun x => f x / T)).sum = (l.map f).sum / T := by
  induction l with
  | nil => simp
  | cons a l ih =>
    simp only [List.map_cons, List.sum_cons, ih]
    ring

lemma sum_map_const_mul {α : Type} (l : List α) (c : ℚ) (f : α → ℚ) :
    (l.map (fun x => c * f x)).sum = c * (l.map f).sum := by
  induction l with
  | nil => simp
  | cons a l ih =>
    simp only [List.map_cons, List.sum_cons, ih]
    ring

/-- C4: with distinct member ids, the shares map lists exactly the members
(in order); if the total net share count of the security is zero the
proposer returns the empty list, and otherwise it returns exactly one
entry per positive-share member — zero- and negative-share members are
absent — with percentage `shares / totalShares` and amount
`quantity × pricePerShare × percentage`. -/
theorem c4_sell_allocation_entries (stockId : String) (quantity pricePerShare : ℚ)
    (data : CalculationData) (sm : SharesMap)
    (hnd : (data.members.map (fun m => m.id)).Nodup)
    (hsm : calculateMemberShares data = some sm) :
    keysOf sm = data.members.map (fun m => m.id) ∧
    ((sm.map (fun p => getQ p.2 stockId)).sum = 0 →
      calculateSellAllocations stockId quantity pricePerShare data = some []) ∧
    ((sm.map (fun p => getQ p.2 stockId)).sum ≠ 0 →
      calculateSellAllocations stockId quantity pricePerShare data =
        some ((sm.filter (fun p => decide (0 < getQ p.2 stockId))).map
          (fun p => { member_id := p.1,
                      amount := quantity * pricePerShare *
                        (getQ p.2 stockId / (sm.map (fun p2 => getQ p2.2 stockId)).sum),
                      percentage :=
                        getQ p.2 stockId /
                          (sm.map (fun p2 => getQ p2.2 stockId)).sum }))) := by
  refine ⟨?_, ?_, ?_⟩
  · rw [calculateMemberShares_keys data sm hsm,
      keysOf_initShares_of_nodup data.members hnd]
  · intro h0
    rw [calculateSellAllocations, hsm, Option.map_some', buildSellAllocations]
    simp only [h0, if_pos]
  · intro h0
    rw [calculateSellAllocations, hsm, Option.map_some', buildSellAllocations]
    rw [if_neg h0, sellAlloc_foldl_eq, List.nil_append]

/-- Witness for C4 at the concrete scenario (sell 5 shares of X at 120):
the total is 10 ≠ 0 and both members hold positive shares. -/
theorem c4_witness :
    (exData.members.map (fun m => m.id)).Nodup ∧
    (keysOf exSharesMap = exData.members.map (fun m => m.id) ∧
     ((exSharesMap.map (fun p => getQ p.2 "X")).sum = 0 →
       calculateSellAllocations "X" 5 120 exData = some []) ∧
     ((exSharesMap.map (fun p => getQ p.2 "X")).sum ≠ 0 →
       calculateSellAllocations "X" 5 120 exData =
         some ((exSharesMap.filter (fun p => decide (0 < getQ p.2 "X"))).map
           (fun p => { member_id := p.1,
                       amount := 5 * 120 *
                         (getQ p.2 "X" / (exSharesMap.map (fun p2 => getQ p2.2 "X")).sum),
                       percentage :=
                         getQ p.2 "X" /
                           (exSharesMap.map (fun p2 => getQ p2.2 "X")).sum })))) :=
  ⟨by decide, c4_sell_allocation_entries "X" 5 120 exData exSharesMap (by decide) exShares⟩

lemma mixedShares : calculateMemberShares mixedSharesData =
    some [("A", [("Y", -5)]), ("B", [("Y", 10)])] := by
  simp [mixedSharesData, memA, memB, stockY, calculateMemberShares, processTx,
    applyAllocation, initShares, foldOpt, setA, lookupA, getQ]

/-- C10: whenever every member's net share count for the security is
nonnegative and their total is strictly positive, the proposed
percentages sum exactly to 1 and the proposed amounts sum exactly to
`quantity × pricePerShare`; and this fails on a snapshot with a negative
holding (B holds 10, A holds -5, so B alone is listed with percentage
10/5 = 2 and the sums are 2 and 2 instead of 1 and 1 × 1). -/
theorem c10_sell_sums :
    (∀ (stockId : String) (quantity pricePerShare : ℚ) (data : CalculationData)
        (sm : SharesMap),
        calculateMemberShares data = some sm →
        (∀ p ∈ sm, 0 ≤ getQ p.2 stockId) →
        0 < (sm.map (fun p => getQ p.2 stockId)).sum →
        ∃ l, calculateSellAllocations stockId quantity pricePerShare data = some l ∧
          (l.map (fun e => e.percentage)).sum = 1 ∧
          (l.map (fun e => e.amount)).sum = quantity * pricePerShare) ∧
    ((calculateSellAllocations "Y" 1 1 mixedSharesData).map (fun l =>
        ((l.map (fun e => e.percentage)).sum, (l.map (fun e => e.amount)).sum)) =
      some (2, 2) ∧ (2 : ℚ) ≠ 1 ∧ (2 : ℚ) ≠ 1 * 1) := by
  constructor
  · intro stockId quantity pricePerShare data sm hsm hnonneg hpos
    have hT0 : (sm.map (fun p => getQ p.2 stockId)).sum ≠ 0 := ne_of_gt hpos
    rw [calculateSellAllocations, hsm, Option.map_some', buildSellAllocations,
      if_neg hT0, sellAlloc_foldl_eq, List.nil_append]
    refine ⟨_, rfl, ?_, ?_⟩
    · rw [List.map_map]
      have hzero : ∀ p ∈ sm, (fun p => decide (0 < getQ p.2 stockId)) p = false →
          ((fun e => SellAllocation.percentage e) ∘ fun p =>
            { member_id := p.1,
              amount := quantity * pricePerShare *
                (getQ p.2 stockId / (sm.map (fun p => getQ p.2 stockId)).sum),
              percentage := getQ p.2 stockId /
                (sm.map (fun p => getQ p.2 stockId)).sum }) p = 0 := by
        intro p hp hfalse
        have hle : ¬(0 < getQ p.2 stockId) := by simpa using hfalse
        have : getQ p.2 stockId = 0 :=
          le_antisymm (not_lt.mp hle) (hnonneg p hp)
        simp only [Function.comp_apply, this, zero_div]
      rw [sum_filter_of_zero_out _ _ sm hzero]
      have : (sm.map ((fun e => SellAllocation.percentage e) ∘ fun p =>
          { member_id := p.1,
            amount := quantity * pricePerShare *
              (getQ p.2 stockId / (sm.map (fun p => getQ p.2 stockId)).sum),
            percentage := getQ p.2 stockId /
              (sm.map (fun p => getQ p.2 stockId)).sum })) =
          sm.map (fun p => getQ p.2 stockId / (sm.map (fun p => getQ p.2 stockId)).sum) := rfl
      rw [this, sum_map_div, div_self hT0]
    · rw [List.map_map]
      have hzero : ∀ p ∈ sm, (fun p => decide (0 < getQ p.2 stockId)) p = false →
          ((fun e => SellAllocation.amount e) ∘ fun p =>
            { member_id := p.1,
              amount := quantity * pricePerShare *
                (getQ p.2 stockId / (sm.map (fun p => getQ p.2 stockId)).sum),
              percentage := getQ p.2 stockId /
                (sm.map (fun p => getQ p.2 stockId)).sum }) p = 0 := by
        intro p hp hfalse
        have hle : ¬(0 < getQ p.2 stockId) := by simpa using hfalse
        have : getQ p.2 stockId = 0 :=
          le_antisymm (not_lt.mp hle) (hnonneg p hp)
        simp only [Function.comp_apply, this, zero_div, mul_zero]
      rw [sum_filter_of_zero_out _ _ sm hzero]
      have : (sm.map ((fun e => SellAllocation.amount e) ∘ fun p =>
          { member_id := p.1,
            amount := quantity * pricePerShare *
              (getQ p.2 stockId / (sm.map (fun p => getQ p.2 stockId)).sum),
            percentage := getQ p.2 stockId /
              (sm.map (fun p => getQ p.2 stockId)).sum })) =
          sm.map (fun p => quantity * pricePerShare *
            (getQ p.2 stockId / (sm.map (fun p => getQ p.2 stockId)).sum)) := rfl
      rw [this, sum_map_const_mul, sum_map_div, div_self hT0, mul_one]
  · refine ⟨?_, by norm_num, by norm_num⟩
    rw [calculateSellAllocations, mixedShares, Option.map_some']
    simp [buildSellAllocations, sellAllocStep, getQ, lookupA, List.find?]
    norm_num

/-- Witness for the universal part of C10 at the concrete scenario
(both holdings nonnegative, total 10 > 0; sell 5 shares at 120). -/
theorem c10_witness :
    (∀ p ∈ exSharesMap, 0 ≤ getQ p.2 "X") ∧
    0 < (exSharesMap.map (fun p => getQ p.2 "X")).sum ∧
    (∃ l, calculateSellAllocations "X" 5 120 exData = some l ∧
      (l.map (fun e => e.percentage)).sum = 1 ∧
      (l.map (fun e => e.amount)).sum = 5 * 120) :=
  ⟨by decide,
   by norm_num [exSharesMap, getQ, lookupA, List.find?],
   c10_sell_sums.1 "X" 5 120 exData exSharesMap exShares (by decide)
     (by norm_num [exSharesMap, getQ, lookupA, List.find?])⟩

/-! ### Per-security ownership breakdown (C5) -/

lemma negShares : calculateMemberShares negSharesData = some [("A", [("Y", -5)])] := by
  simp [negSharesData, memA, stockY, calculateMemberShares, processTx,
    applyAllocation, initShares, foldOpt, setA, lookupA, getQ]

/-- C5 counterexample: on a snapshot where A's net count of Y is -5
(nonzero), the per-security breakdown is empty — the code lists only
members with strictly positive share counts, not all members with
nonzero counts as the claim states. -/
theorem c5_counterexample :
    ((calculateStockWithOwnership stockY negSharesData).map
       (fun R => R.memberOwnership)) = some [] ∧
    ((calculateMemberShares negSharesData).map
       (fun sm => getQ (sharesOf sm "A") "Y")) = some (-5) ∧
    (-5 : ℚ) ≠ 0 := by
  refine ⟨?_, ?_, by norm_num⟩
  · rw [calculateStockWithOwnership, negShares, Option.map_some']
    simp [buildStockWithOwnership, stockOwnStep, negSharesData, memA, stockY,
      getQ, sharesOf, lookupA, List.find?]
    norm_num
  · rw [negShares]
    simp [getQ, sharesOf, lookupA, List.find?]

lemma buildStock_memberOwnership (stock : Stock) (data : CalculationData) (sm : SharesMap) :
    (buildStockWithOwnership stock data sm).memberOwnership =
      (data.members.filter (fun m => decide (0 < getQ (sharesOf sm m.id) stock.id))).map
        (fun m =>
          { memberId := m.id, memberName := m.name,
            shares := getQ (sharesOf sm m.id) stock.id,
            value := getQ (sharesOf sm m.id) stock.id * stock.current_price.getD 0,
            percentage :=
              if 0 < ((data.members.filter (fun m2 =>
                  decide (0 < getQ (sharesOf sm m2.id) stock.id))).map
                  (fun m2 => getQ (sharesOf sm m2.id) stock.id)).sum then
                getQ (sharesOf sm m.id) stock.id /
                  ((data.members.filter (fun m2 =>
                    decide (0 < getQ (sharesOf sm m2.id) stock.id))).map
                    (fun m2 => getQ (sharesOf sm m2.id) stock.id)).sum * 100
              else 0 }) := by
  rw [buildStockWithOwnership, stockOwn_foldl_eq]
  simp only [zero_add, List.nil_append, List.map_map]
  rfl

lemma buildStock_sharesOwned (stock : Stock) (data : CalculationData) (sm : SharesMap) :
    (buildStockWithOwnership stock data sm).sharesOwned =
      ((data.members.filter (fun m => decide (0 < getQ (sharesOf sm m.id) stock.id))).map
        (fun m => getQ (sharesOf sm m.id) stock.id)).sum := by
  rw [buildStockWithOwnership, stockOwn_foldl_eq]
  simp only [zero_add]

/-- C5 (amended): the per-security breakdown lists exactly the members
whose net share count of the security is strictly positive (zero and
negative holders are omitted, even with nonzero cost basis), each listed
member's percentage is its shares divided by the total of the listed
positive holdings times 100, and the percentages sum to 100 whenever the
breakdown is nonempty. -/
theorem c5_amended_security_breakdown (stock : Stock) (data : CalculationData)
    (sm : SharesMap) (R : StockWithOwnership)
    (hsm : calculateMemberShares data = some sm)
    (hR : calculateStockWithOwnership stock data = some R) :
    R.memberOwnership.map (fun mo => mo.memberId) =
      (data.members.filter (fun m =>
        decide (0 < getQ (sharesOf sm m.id) stock.id))).map (fun m => m.id) ∧
    R.sharesOwned = ((data.members.filter (fun m =>
        decide (0 < getQ (sharesOf sm m.id) stock.id))).map
        (fun m => getQ (sharesOf sm m.id) stock.id)).sum ∧
    (∀ mo ∈ R.memberOwnership,
       mo.percentage = if 0 < R.sharesOwned then mo.shares / R.sharesOwned * 100 else 0) ∧
    (R.memberOwnership ≠ [] →
      (R.memberOwnership.map (fun mo => mo.percentage)).sum = 100) := by
  rw [calculateStockWithOwnership, hsm, Option.map_some'] at hR
  have hR2 := Option.some.inj hR
  subst hR2
  rw [buildStock_memberOwnership, buildStock_sharesOwned]
  refine ⟨?_, rfl, ?_, ?_⟩
  · rw [List.map_map]
    rfl
  · intro mo hmo
    obtain ⟨m, hm, rfl⟩ := List.mem_map.mp hmo
    rfl
  · intro hne
    have hFne : data.members.filter (fun m =>
        decide (0 < getQ (sharesOf sm m.id) stock.id)) ≠ [] := by
      intro hF
      rw [hF] at hne
      exact hne rfl
    have hT : 0 < ((data.members.filter (fun m =>
        decide (0 < getQ (sharesOf sm m.id) stock.id))).map
        (fun m => getQ (sharesOf sm m.id) stock.id)).sum := by
      apply sum_pos_of_pos
      · intro x hx
        obtain ⟨m, hm, rfl⟩ := List.mem_map.mp hx
        have := (List.mem_filter.mp hm).2
        simpa using this
      · intro hmapnil
        exact hFne (List.map_eq_nil_iff.mp hmapnil)
    rw [List.map_map]
    show ((data.members.filter (fun m =>
        decide (0 < getQ (sharesOf sm m.id) stock.id))).map
        (fun m =>
          if 0 < ((data.members.filter (fun m2 =>
              decide (0 < getQ (sharesOf sm m2.id) stock.id))).map
              (fun m2 => getQ (sharesOf sm m2.id) stock.id)).sum then
            getQ (sharesOf sm m.id) stock.id /
              ((data.members.filter (fun m2 =>
                decide (0 < getQ (sharesOf sm m2.id) stock.id))).map
                (fun m2 => getQ (sharesOf sm m2.id) stock.id)).sum * 100
          else 0)).sum = 100
    simp only [hT, if_true]
    rw [sum_map_div_mul, div_self (ne_of_gt hT)]
    norm_num

/-- Witness for the amended C5 at the concrete scenario (both members
hold positive shares of X). -/
theorem c5_witness :
    (buildStockWithOwnership stockX exData exSharesMap).memberOwnership.map
        (fun mo => mo.memberId) =
      (exData.members.filter (fun m =>
        decide (0 < getQ (sharesOf exSharesMap m.id) stockX.id))).map (fun m => m.id) ∧
    (buildStockWithOwnership stockX exData exSharesMap).sharesOwned =
      ((exData.members.filter (fun m =>
        decide (0 < getQ (sharesOf exSharesMap m.id) stockX.id))).map
        (fun m => getQ (sharesOf exSharesMap m.id) stockX.id)).sum ∧
    (∀ mo ∈ (buildStockWithOwnership stockX exData exSharesMap).memberOwnership,
       mo.percentage =
         if 0 < (buildStockWithOwnership stockX exData exSharesMap).sharesOwned then
           mo.shares / (buildStockWithOwnership stockX exData exSharesMap).sharesOwned * 100
         else 0) ∧
    ((buildStockWithOwnership stockX exData exSharesMap).memberOwnership ≠ [] →
      ((buildStockWithOwnership stockX exData exSharesMap).memberOwnership.map
        (fun mo => mo.percentage)).sum = 100) :=
  c5_amended_security_breakdown stockX exData exSharesMap
    (buildStockWithOwnership stockX exData exSharesMap) exShares
    (by rw [calculateStockWithOwnership, exShares]; rfl)

/-! ### Portfolio summary (C1, C2, C7) -/

lemma buildSummary_breakdown (data : CalculationData) (sm : SharesMap) :
    (buildSummary data sm).memberBreakdown =
      (memberBreakdown0 data sm).map (fun m =>
        { m with ownershipPercentage :=
            if 0 < ((memberBreakdown0 data sm).map (fun m2 => m2.totalValue)).sum then
              m.totalValue /
                ((memberBreakdown0 data sm).map (fun m2 => m2.totalValue)).sum * 100
            else 0 }) := rfl

lemma buildSummary_totalValue (data : CalculationData) (sm : SharesMap) :
    (buildSummary data sm).totalValue =
      ((memberBreakdown0 data sm).map (fun m => m.totalValue)).sum := rfl

lemma buildSummary_totalCash (data : CalculationData) (sm : SharesMap) :
    (buildSummary data sm).totalCash =
      ((memberBreakdown0 data sm).map (fun m => m.availableCash)).sum := rfl

lemma buildSummary_totalCostBasis (data : CalculationData) (sm : SharesMap) :
    (buildSummary data sm).totalCostBasis =
      ((memberBreakdown0 data sm).map (fun m => m.costBasis)).sum := rfl

lemma map_upd_totalValue (L : List MemberPortfolioSummary)
    (c : MemberPortfolioSummary → ℚ) :
    ((L.map (fun m => { m with ownershipPercentage := c m })).map
      (fun m => m.totalValue)) = L.map (fun m => m.totalValue) := by
  rw [List.map_map]
  rfl

lemma map_upd_gainLoss (L : List MemberPortfolioSummary)
    (c : MemberPortfolioSummary → ℚ) :
    ((L.map (fun m => { m with ownershipPercentage := c m })).map
      (fun m => m.gainLoss)) = L.map (fun m => m.gainLoss) := by
  rw [List.map_map]
  rfl

lemma memberBreakdown0_pointwise (data : CalculationData) (sm : SharesMap) :
    ∀ e ∈ memberBreakdown0 data sm,
      e.totalValue = e.currentStockValue + e.availableCash ∧
      e.gainLoss = e.currentStockValue - e.costBasis := by
  intro e he
  obtain ⟨m, hm, rfl⟩ := List.mem_map.mp he
  exact ⟨rfl, rfl⟩

lemma breakdown_sum_identity (L : List MemberPortfolioSummary)
    (h : ∀ e ∈ L, e.totalValue = e.currentStockValue + e.availableCash ∧
      e.gainLoss = e.currentStockValue - e.costBasis) :
    (L.map (fun e => e.totalValue)).sum - (L.map (fun e => e.availableCash)).sum -
      (L.map (fun e => e.costBasis)).sum = (L.map (fun e => e.gainLoss)).sum := by
  induction L with
  | nil => simp
  | cons e L ih =>
    obtain ⟨h1, h2⟩ := h e (List.mem_cons_self e L)
    have hrest := ih (fun e2 he2 => h e2 (List.mem_cons_of_mem e he2))
    simp only [List.map_cons, List.sum_cons]
    linarith

/-- C1 (amended): whenever the sum of the members' total values is
strictly positive, each member's ownership percentage is its total value
divided by that sum times 100 and the percentages sum to exactly 100;
whenever that sum is nonpositive — in particular when the denominator is
zero — every member's ownership percentage is the defined value 0 (the
division is never performed, so no NaN and no division failure). -/
theorem c1_amended_ownership (data : CalculationData) (S : PortfolioSummary)
    (h : calculatePortfolioSummary data = some S) :
    (0 < (S.memberBreakdown.map (fun mb => mb.totalValue)).sum →
      (∀ mb ∈ S.memberBreakdown,
        mb.ownershipPercentage =
          mb.totalValue / (S.memberBreakdown.map (fun mb2 => mb2.totalValue)).sum * 100) ∧
      (S.memberBreakdown.map (fun mb => mb.ownershipPercentage)).sum = 100) ∧
    ((S.memberBreakdown.map (fun mb => mb.totalValue)).sum ≤ 0 →
      ∀ mb ∈ S.memberBreakdown, mb.ownershipPercentage = 0) := by
  rw [calculatePortfolioSummary] at h
  obtain ⟨sm, hsm, hS⟩ := Option.map_eq_some'.mp h
  subst hS
  rw [buildSummary_breakdown, map_upd_totalValue]
  constructor
  · intro hT
    constructor
    · intro mb hmb
      obtain ⟨m0, hm0, rfl⟩ := List.mem_map.mp hmb
      show (if 0 < ((memberBreakdown0 data sm).map (fun m2 => m2.totalValue)).sum then
          m0.totalValue /
            ((memberBreakdown0 data sm).map (fun m2 => m2.totalValue)).sum * 100
        else 0) =
        m0.totalValue /
          ((memberBreakdown0 data sm).map (fun m2 => m2.totalValue)).sum * 100
      rw [if_pos hT]
    · rw [List.map_map]
      show ((memberBreakdown0 data sm).map (fun m =>
          if 0 < ((memberBreakdown0 data sm).map (fun m2 => m2.totalValue)).sum then
            m.totalValue /
              ((memberBreakdown0 data sm).map (fun m2 => m2.totalValue)).sum * 100
          else 0)).sum = 100
      simp only [hT, if_true]
      rw [sum_map_div_mul, div_self (ne_of_gt hT)]
      norm_num
  · intro hT mb hmb
    obtain ⟨m0, hm0, rfl⟩ := List.mem_map.mp hmb
    show (if 0 < ((memberBreakdown0 data sm).map (fun m2 => m2.totalValue)).sum then
        m0.totalValue /
          ((memberBreakdown0 data sm).map (fun m2 => m2.totalValue)).sum * 100
      else 0) = 0
    rw [if_neg (not_lt.mpr hT)]

/-- C2 (amended): `totalGainLoss` is computed as
`totalValue - totalCash - totalCostBasis`, and in exact arithmetic this
is always equal to the sum of the members' `gainLoss` figures — also
when member cash or cost basis is negative — because the totals are the
sums of the member rows. -/
theorem c2_amended_total_gain_loss (data : CalculationData) (S : PortfolioSummary)
    (h : calculatePortfolioSummary data = some S) :
    S.totalGainLoss = S.totalValue - S.totalCash - S.totalCostBasis ∧
    S.totalGainLoss = (S.memberBreakdown.map (fun mb => mb.gainLoss)).sum := by
  rw [calculatePortfolioSummary] at h
  obtain ⟨sm, hsm, hS⟩ := Option.map_eq_some'.mp h
  subst hS
  refine ⟨rfl, ?_⟩
  rw [buildSummary_breakdown, map_upd_gainLoss]
  show ((memberBreakdown0 data sm).map (fun e => e.totalValue)).sum -
      ((memberBreakdown0 data sm).map (fun e => e.availableCash)).sum -
      ((memberBreakdown0 data sm).map (fun e => e.costBasis)).sum =
    ((memberBreakdown0 data sm).map (fun e => e.gainLoss)).sum
  exact breakdown_sum_identity _ (memberBreakdown0_pointwise data sm)

lemma negTotalShares : calculateMemberShares negTotalData = some [("A", [])] := by
  simp [negTotalData, memA, calculateMemberShares, processTx, applyAllocation,
    initShares, foldOpt, setA, lookupA]

/-- C1 counterexample: on a snapshot whose only member has total value
-100 (negative contribution), the code reports ownership percentage 0
while the claim's unconditional formula gives
(-100)/(-100) × 100 = 100, so the claim's formula clause fails for a
negative denominator. -/
theorem c1_counterexample :
    ((calculatePortfolioSummary negTotalData).map (fun S =>
        (S.memberBreakdown.map (fun mb => mb.ownershipPercentage),
         S.memberBreakdown.map (fun mb =>
           mb.totalValue /
             (S.memberBreakdown.map (fun mb2 => mb2.totalValue)).sum * 100)))) =
      some ([0], [100]) ∧ (0 : ℚ) ≠ 100 := by
  refine ⟨?_, by norm_num⟩
  rw [calculatePortfolioSummary, negTotalShares, Option.map_some']
  simp [buildSummary, memberBreakdown0, memberSummary, stockValueStep,
    calculateMemberCash, cashStep, poolFor, totalContribFor, totalBuysFor, totalSellsFor,
    calculateCostBasis, costBasisStep, setA, lookupA, getQ, sharesOf,
    negTotalData, memA]

lemma negFigsShares : calculateMemberShares negFigsData =
    some [("A", [("Y", 1)]), ("B", [("Y", -1)])] := by
  simp [negFigsData, memA, memB, stockY, calculateMemberShares, processTx,
    applyAllocation, initShares, foldOpt, setA, lookupA, getQ]

/-- C2 counterexample: on a snapshot with a negative member cash balance
(A: -200) and a negative member cost basis (B: -500), `totalGainLoss`
(200) still equals the sum of the member `gainLoss` values (200),
refuting the claim that the two formulas differ on such a snapshot. -/
theorem c2_counterexample :
    ((calculatePortfolioSummary negFigsData).map (fun S =>
        (S.totalGainLoss, (S.memberBreakdown.map (fun mb => mb.gainLoss)).sum,
         S.memberBreakdown.map (fun mb => mb.availableCash),
         S.memberBreakdown.map (fun mb => mb.costBasis)))) =
      some (200, 200, [-200, 1500], [300, -500]) := by
  rw [calculatePortfolioSummary, negFigsShares, Option.map_some']
  simp [buildSummary, memberBreakdown0, memberSummary, stockValueStep,
    calculateMemberCash, cashStep, poolFor, totalContribFor, totalBuysFor, totalSellsFor,
    calculateCostBasis, costBasisStep, setA, lookupA, getQ, sharesOf,
    negFigsData, memA, memB, stockY]
  norm_num

/-- Witness for the amended C1 at the concrete scenario (total 2200 > 0). -/
theorem c1_witness :
    (0 < ((buildSummary exData exSharesMap).memberBreakdown.map
        (fun mb => mb.totalValue)).sum →
      (∀ mb ∈ (buildSummary exData exSharesMap).memberBreakdown,
        mb.ownershipPercentage =
          mb.totalValue /
            ((buildSummary exData exSharesMap).memberBreakdown.map
              (fun mb2 => mb2.totalValue)).sum * 100) ∧
      ((buildSummary exData exSharesMap).memberBreakdown.map
        (fun mb => mb.ownershipPercentage)).sum = 100) ∧
    (((buildSummary exData exSharesMap).memberBreakdown.map
        (fun mb => mb.totalValue)).sum ≤ 0 →
      ∀ mb ∈ (buildSummary exData exSharesMap).memberBreakdown,
        mb.ownershipPercentage = 0) :=
  c1_amended_ownership exData (buildSummary exData exSharesMap)
    (by rw [calculatePortfolioSummary, exShares]; rfl)

/-- Witness for the amended C2 at the concrete scenario. -/
theorem c2_witness :
    (buildSummary exData exSharesMap).totalGainLoss =
      (buildSummary exData exSharesMap).totalValue -
        (buildSummary exData exSharesMap).totalCash -
        (buildSummary exData exSharesMap).totalCostBasis ∧
    (buildSummary exData exSharesMap).totalGainLoss =
      ((buildSummary exData exSharesMap).memberBreakdown.map
        (fun mb => mb.gainLoss)).sum :=
  c2_amended_total_gain_loss exData (buildSummary exData exSharesMap)
    (by rw [calculatePortfolioSummary, exShares]; rfl)

lemma stockValue_foldl_eq (shares mcb : List (String × ℚ)) :
    ∀ (l : List Stock) (a b : ℚ),
      l.foldl (stockValueStep shares mcb) (a, b) =
        (a + (l.map (fun st => getQ shares st.id * (st.current_price.getD 0))).sum,
         b + (l.map (fun st => getQ mcb st.id)).sum) := by
  intro l
  induction l with
  | nil => intro a b; simp
  | cons st l ih =>
    intro a b
    rw [List.foldl_cons,
      show stockValueStep shares mcb (a, b) st =
        (a + getQ shares st.id * (st.current_price.getD 0), b + getQ mcb st.id) from rfl,
      ih]
    simp only [List.map_cons, List.sum_cons, Prod.mk.injEq]
    constructor <;> ring

lemma memberSummary_csv (stocks : List Stock) (memberCash : List (String × MemberCashPool))
    (sharesMap costBasisMap : SharesMap) (m : FamilyMember) :
    (memberSummary stocks memberCash sharesMap costBasisMap m).currentStockValue =
      (stocks.map (fun st => getQ (sharesOf sharesMap m.id) st.id *
        (st.current_price.getD 0))).sum := by
  show (stocks.foldl (stockValueStep (sharesOf sharesMap m.id)
      ((lookupA costBasisMap m.id).getD [])) (0, 0)).1 = _
  rw [stockValue_foldl_eq]
  simp

lemma memberSummary_glp_zero (stocks : List Stock)
    (memberCash : List (String × MemberCashPool))
    (sharesMap costBasisMap : SharesMap) (m : FamilyMember)
    (h : (memberSummary stocks memberCash sharesMap costBasisMap m).costBasis = 0) :
    (memberSummary stocks memberCash sharesMap costBasisMap m).gainLossPercentage = 0 := by
  show (if 0 < (memberSummary stocks memberCash sharesMap costBasisMap m).costBasis then
      (memberSummary stocks memberCash sharesMap costBasisMap m).gainLoss /
        (memberSummary stocks memberCash sharesMap costBasisMap m).costBasis * 100
    else 0) = 0
  rw [h, if_neg (lt_irrefl 0)]

/-- C7: a null `current_price` is treated as 0: the summary's success
never depends on the stock list (so a null price raises no error), a
null-price security contributes nothing to any member's stock value
(the value equals the sum over the non-null-price securities alone), and
`gainLossPercentage` is 0 whenever the member's cost basis is 0. -/
theorem c7_null_price_handling (data : CalculationData) :
    (∀ stocks2 : List Stock,
       (calculatePortfolioSummary { data with stocks := stocks2 }).isSome =
         (calculatePortfolioSummary data).isSome) ∧
    (∀ S, calculatePortfolioSummary data = some S →
      ∀ sm, calculateMemberShares data = some sm →
      ∀ mb ∈ S.memberBreakdown,
        (mb.costBasis = 0 → mb.gainLossPercentage = 0) ∧
        mb.currentStockValue =
          ((data.stocks.filter (fun st => st.current_price.isSome)).map
            (fun st => getQ (sharesOf sm mb.memberId) st.id *
              (st.current_price.getD 0))).sum) := by
  constructor
  · intro s2
    rw [calculatePortfolioSummary, calculatePortfolioSummary,
      show calculateMemberShares { data with stocks := s2 } =
        calculateMemberShares data from rfl]
    cases calculateMemberShares data <;> rfl
  · intro S hS sm hsm mb hmb
    rw [calculatePortfolioSummary, hsm, Option.map_some'] at hS
    have hS2 := Option.some.inj hS
    subst hS2
    rw [buildSummary_breakdown] at hmb
    obtain ⟨m0, hm0, rfl⟩ := List.mem_map.mp hmb
    rw [memberBreakdown0] at hm0
    obtain ⟨m, hm, rfl⟩ := List.mem_map.mp hm0
    constructor
    · intro hcb
      exact memberSummary_glp_zero data.stocks (calculateMemberCash data) sm
        (calculateCostBasis data) m hcb
    · have hfilter :
          ((data.stocks.filter (fun st => st.current_price.isSome)).map
            (fun st => getQ (sharesOf sm m.id) st.id * (st.current_price.getD 0))).sum =
          (data.stocks.map
            (fun st => getQ (sharesOf sm m.id) st.id * (st.current_price.getD 0))).sum := by
        apply sum_filter_of_zero_out
        intro st hst hfalse
        have hnone : st.current_price = none := by
          cases hcp : st.current_price with
          | none => rfl
          | some q => simp [hcp] at hfalse
        show getQ (sharesOf sm m.id) st.id * (st.current_price.getD 0) = 0
        rw [hnone]
        simp
      exact (memberSummary_csv data.stocks (calculateMemberCash data) sm
        (calculateCostBasis data) m).trans hfilter.symm

lemma nullShares : calculateMemberShares nullPriceData = some [("A", [])] := by
  simp [nullPriceData, memA, calculateMemberShares, processTx, applyAllocation,
    initShares, foldOpt, setA, lookupA]

lemma nullBreakdown :
    (buildSummary nullPriceData [("A", [])]).memberBreakdown = [nullMemberRow] := by
  simp [buildSummary, memberBreakdown0, memberSummary, stockValueStep,
    calculateMemberCash, cashStep, poolFor, totalContribFor, totalBuysFor, totalSellsFor,
    calculateCostBasis, costBasisStep, setA, lookupA, getQ, sharesOf,
    nullPriceData, memA, stockN, nullMemberRow]

/-- Witness for C7 on a snapshot holding only a null-price security. -/
theorem c7_witness :
    (nullMemberRow.costBasis = 0 → nullMemberRow.gainLossPercentage = 0) ∧
    nullMemberRow.currentStockValue =
      ((nullPriceData.stocks.filter (fun st => st.current_price.isSome)).map
        (fun st => getQ (sharesOf [("A", [])] nullMemberRow.memberId) st.id *
          (st.current_price.getD 0))).sum :=
  (c7_null_price_handling nullPriceData).2 (buildSummary nullPriceData [("A", [])])
    (by rw [calculatePortfolioSummary, nullShares]; rfl) [("A", [])] nullShares
    nullMemberRow (by rw [nullBreakdown]; exact List.mem_singleton.mpr rfl)
